import Mathlib

/-!
Shallow embedding of `StandardRunService`
(src/libs/services/designer-client-services/src/lib/standard/run.ts).

JavaScript payload values are modelled by an inductive `Json` type; JS
falsiness, nullish coalescing and template-string interpolation of
possibly-undefined values are modelled explicitly.  Every service method is
embedded as a pure function from the injected HTTP transport (a function
from requests to transport outcomes) to a result paired with the list of
transport requests actually issued, so that claims about "no network call"
and request ordering are statable.
-/

namespace LogicAppsRun

/-- A JavaScript value as it flows through the run-service payloads.
`undef` models `undefined`, kept distinct from `null` (both are falsy and
nullish, but they print differently and the source distinguishes them). -/
inductive Json : Type where
  | null : Json
  | undef : Json
  | str : String → Json
  | num : Int → Json
  | boolean : Bool → Json
  | obj : List (String × Json) → Json

/-- JS truthiness test (`!x`): `null`, `undefined`, `""`, `0`, `false` are falsy. -/
def Json.isFalsy : Json → Bool
  | .null => true
  | .undef => true
  | .str s => decide (s = "")
  | .num n => decide (n = 0)
  | .boolean b => !b
  | .obj _ => false

/-- JS nullish test (`x ?? d` picks `d`): only `null` and `undefined`. -/
def Json.isNullish : Json → Bool
  | .null => true
  | .undef => true
  | _ => false

/-- `o ?? d` where an absent lookup yields `undefined`. -/
def nullishCoalesce (o : Option Json) (d : Json) : Json :=
  match o with
  | none => d
  | some v => if v.isNullish then d else v

/-- Property read `record[key]` on a JS object modelled as a field list;
an absent key yields `none` (i.e. `undefined`). -/
def lookupField (fields : List (String × Json)) (k : String) : Option Json :=
  match fields.find? (fun kv => kv.1 == k) with
  | some kv => some kv.2
  | none => none

/-- `StandardRunService.parseActionLink` (run.ts lines 235-245):
falsy responses are returned unchanged; a string payload is first wrapped
into a one-entry object keyed `Inputs`/`Outputs` by `isInput`; then every
key of the dictionary is mapped to `{ displayName: key, value: value }`
(`Object.keys(...).reduce(...)`; for a truthy non-object primitive,
`Object.keys` yields no keys, so the result is the empty object). -/
def parseActionLink (response : Json) (isInput : Bool) : Json :=
  if response.isFalsy then response
  else
    let dictionaryResponse : Json :=
      match response with
      | .str s => Json.obj [((if isInput then "Inputs" else "Outputs"), Json.str s)]
      | other => other
    match dictionaryResponse with
    | .obj fields =>
        Json.obj (fields.map fun kv => (kv.1, Json.obj [("displayName", Json.str kv.1), ("value", kv.2)]))
    | _ => Json.obj []

/-- `RunServiceOptions` (run.ts lines 14-21), minus the injected
`httpClient`, which the embedding passes to each operation explicitly. -/
structure RunServiceOptions : Type where
  apiVersion : String
  baseUrl : String
  accessToken : Option String := none
  workflowName : String
  isDev : Option Bool := none
  deriving DecidableEq

/-- The error values the service can raise: `ArgumentException`,
`UnsupportedException`, and plain `Error(message)` (a bare `new Error()`
carries the empty message). -/
inductive ServiceError : Type where
  | argument : String → ServiceError
  | unsupported : String → ServiceError
  | plain : String → ServiceError
  deriving DecidableEq

/-- A constructed `StandardRunService` instance: its options plus the
`_isDev` field set by the constructor. -/
structure StandardRunService : Type where
  options : RunServiceOptions
  _isDev : Bool
  deriving DecidableEq

/-- The `StandardRunService` constructor (run.ts lines 26-34): throws
`ArgumentException` on a falsy (empty) `baseUrl`, else on a falsy
`apiVersion`; otherwise stores `isDev || false`. -/
def mkStandardRunService (options : RunServiceOptions) : Except ServiceError StandardRunService :=
  if options.baseUrl = "" then Except.error (ServiceError.argument ("baseUrl required"))
  else if options.apiVersion = "" then Except.error (ServiceError.argument ("apiVersion required"))
  else Except.ok { options := options, _isDev := options.isDev.getD false }

/-- An HTTP verb of the injected `IHttpClient`. -/
inductive Verb : Type where
  | get : Verb
  | post : Verb
  | put : Verb
  deriving DecidableEq

/-- One request handed to the transport: the verb, the URI and the request
options the source passes (`headers`, `noAuth`). -/
structure HttpRequest : Type where
  verb : Verb
  uri : String
  headers : List (String × String) := []
  noAuth : Bool := false
  deriving DecidableEq

/-- The structured rejection value of a failed transport call: `message`,
`status`, and the optional `data.error.message` field of the body. -/
structure TransportError : Type where
  message : String := ""
  status : Nat := 0
  dataErrorMessage : Option String := none
  deriving DecidableEq

/-- The injected transport for a call whose response is decoded at type `ρ`. -/
abbrev Transport (ρ : Type) : Type := HttpRequest → Except TransportError ρ

/-- Outcome of one service operation together with the transport requests it
issued, in order. -/
structure CallResult (α : Type) : Type where
  result : Except ServiceError α
  requests : List HttpRequest

/-- The generic ARM page envelope `ArmResources<T>`: `value` plus an
optional `nextLink` continuation URL. -/
structure ArmResources (α : Type) : Type where
  value : List α
  nextLink : Option String := none
  deriving DecidableEq

/-- The `Runs` page shape the service returns: `{ nextLink, runs }`. -/
structure Runs (α : Type) : Type where
  nextLink : Option String
  runs : List α
  deriving DecidableEq

/-- A `{ value: [...] }` response body (scope repetitions). -/
structure ValueList (α : Type) : Type where
  value : List α
  deriving DecidableEq

/-- `ContentLink`: a descriptor whose `uri` may be absent. -/
structure ContentLink : Type where
  uri : Option String := none
  deriving DecidableEq

/-- The `{ nodeId, runId }` action reference (`runId` is `string | undefined`). -/
structure ActionRef : Type where
  nodeId : String
  runId : Option String := none
  deriving DecidableEq

/-- The `{ inputsLink?, outputsLink? }` metadata of `getActionLinks`. -/
structure ActionMetadata : Type where
  inputsLink : Option ContentLink := none
  outputsLink : Option ContentLink := none
  deriving DecidableEq

/-- JS falsiness of an optional string (`!x`): absent or empty. -/
def optFalsy (o : Option String) : Bool :=
  decide (o.getD ("") = "")

/-- Template-string interpolation of a `string | undefined` value:
an undefined value prints as the literal text `undefined`. -/
def interp (o : Option String) : String :=
  match o with
  | some s => s
  | none => "undefined"

/-- `getAccessTokenHeaders` (run.ts lines 56-65): `undefined` without a
token, else a single raw `Authorization` header. -/
def StandardRunService.getAccessTokenHeaders (svc : StandardRunService) :
    Option (List (String × String)) :=
  match svc.options.accessToken with
  | none => none
  | some t => some [("Authorization", t)]

/-- The request `getContent` issues for a content link (run.ts lines 45-49):
unauthenticated GET with a CORS-permissive header. -/
def contentRequest (contentLink : ContentLink) : HttpRequest :=
  { verb := Verb.get
    uri := contentLink.uri.getD ("")
    headers := [("Access-Control-Allow-Origin", "*")]
    noAuth := true }

/-- `getContent` (run.ts lines 36-54): a falsy `uri` throws a bare `Error`
before any transport call; otherwise one GET, re-raising a failure as a
plain `Error(e.message)`. -/
def StandardRunService.getContent {ρ : Type} (_svc : StandardRunService)
    (httpClient : Transport ρ) (contentLink : ContentLink) : CallResult ρ :=
  if optFalsy contentLink.uri then
    { result := Except.error (ServiceError.plain ("")), requests := [] }
  else
    { result :=
        match httpClient (contentRequest contentLink) with
        | Except.ok response => Except.ok response
        | Except.error e => Except.error (ServiceError.plain e.message)
      requests := [contentRequest contentLink] }

/-- The request `getMoreRuns` issues: GET of the continuation token
verbatim, with the bearer headers when configured (run.ts lines 71-75). -/
def StandardRunService.moreRunsRequest (svc : StandardRunService)
    (continuationToken : String) : HttpRequest :=
  { verb := Verb.get
    uri := continuationToken
    headers := (svc.getAccessTokenHeaders).getD [] }

/-- `getMoreRuns` (run.ts lines 67-82): GET the continuation URL, extract
`{ nextLink, value }` into `{ nextLink, runs }`; plain-message re-raise. -/
def StandardRunService.getMoreRuns {α : Type} (svc : StandardRunService)
    (httpClient : Transport (ArmResources α)) (continuationToken : String) :
    CallResult (Runs α) :=
  { result :=
      match httpClient (svc.moreRunsRequest continuationToken) with
      | Except.ok response => Except.ok { nextLink := response.nextLink, runs := response.value }
      | Except.error e => Except.error (ServiceError.plain e.message)
    requests := [svc.moreRunsRequest continuationToken] }

/-- `getRun` (run.ts lines 89-102): GET with the `$expand` query, no
headers; plain-message re-raise. -/
def StandardRunService.getRun {ρ : Type} (svc : StandardRunService)
    (httpClient : Transport ρ) (runId : String) : CallResult ρ :=
  { result :=
      match httpClient
          { verb := Verb.get
            uri := svc.options.baseUrl ++ "/workflows/" ++ svc.options.workflowName ++ "/runs/" ++
              runId ++ "?api-version=" ++ svc.options.apiVersion ++
              "&$expand=properties/actions,workflow/properties" } with
      | Except.ok response => Except.ok response
      | Except.error e => Except.error (ServiceError.plain e.message)
    requests :=
      [{ verb := Verb.get
         uri := svc.options.baseUrl ++ "/workflows/" ++ svc.options.workflowName ++ "/runs/" ++
           runId ++ "?api-version=" ++ svc.options.apiVersion ++
           "&$expand=properties/actions,workflow/properties" }] }

/-- The request `getRuns` issues (run.ts lines 112-117). -/
def StandardRunService.runsRequest (svc : StandardRunService) : HttpRequest :=
  { verb := Verb.get
    uri := svc.options.baseUrl ++ "/workflows/" ++ svc.options.workflowName ++
      "/runs?api-version=" ++ svc.options.apiVersion
    headers := (svc.getAccessTokenHeaders).getD [] }

/-- `getRuns` (run.ts lines 108-124): first page of the run history with
the same envelope extraction as `getMoreRuns`. -/
def StandardRunService.getRuns {α : Type} (svc : StandardRunService)
    (httpClient : Transport (ArmResources α)) : CallResult (Runs α) :=
  { result :=
      match httpClient svc.runsRequest with
      | Except.ok response => Except.ok { nextLink := response.nextLink, runs := response.value }
      | Except.error e => Except.error (ServiceError.plain e.message)
    requests := [svc.runsRequest] }

/-- The request `getScopeRepetitions` issues in non-dev mode
(run.ts lines 145-152): the `$filter` clause is appended exactly when
`status` is truthy (supplied and non-empty). -/
def StandardRunService.scopeRepetitionsRequest (svc : StandardRunService)
    (action : ActionRef) (status : Option String) : HttpRequest :=
  { verb := Verb.get
    uri := svc.options.baseUrl ++ interp action.runId ++ "/actions/" ++ action.nodeId ++
      "/scopeRepetitions?api-version=" ++ svc.options.apiVersion ++
      (if optFalsy status then "" else "&$filter=status eq '" ++ status.getD ("") ++ "'")
    headers := (svc.getAccessTokenHeaders).getD [] }

/-- `getScopeRepetitions` (run.ts lines 132-158): in dev mode resolves to
`{ value: [] }` with no transport call; otherwise one GET with the
optional status filter; plain-message re-raise. -/
def StandardRunService.getScopeRepetitions {α : Type} (svc : StandardRunService)
    (httpClient : Transport (ValueList α)) (action : ActionRef) (status : Option String) :
    CallResult (ValueList α) :=
  if svc._isDev then
    { result := Except.ok { value := [] }, requests := [] }
  else
    { result :=
        match httpClient (svc.scopeRepetitionsRequest action status) with
        | Except.ok response => Except.ok response
        | Except.error e => Except.error (ServiceError.plain e.message)
      requests := [svc.scopeRepetitionsRequest action status] }

/-- `getRepetition` (run.ts lines 166-182): one GET with bearer headers;
plain-message re-raise. -/
def StandardRunService.getRepetition {ρ : Type} (svc : StandardRunService)
    (httpClient : Transport ρ) (action : ActionRef) (repetitionId : String) : CallResult ρ :=
  { result :=
      match httpClient
          { verb := Verb.get
            uri := svc.options.baseUrl ++ interp action.runId ++ "/actions/" ++ action.nodeId ++
              "/repetitions/" ++ repetitionId ++ "?api-version=" ++ svc.options.apiVersion
            headers := (svc.getAccessTokenHeaders).getD [] } with
      | Except.ok response => Except.ok response
      | Except.error e => Except.error (ServiceError.plain e.message)
    requests :=
      [{ verb := Verb.get
         uri := svc.options.baseUrl ++ interp action.runId ++ "/actions/" ++ action.nodeId ++
           "/repetitions/" ++ repetitionId ++ "?api-version=" ++ svc.options.apiVersion
         headers := (svc.getAccessTokenHeaders).getD [] }] }

/-- Does a possibly-absent content link pass `link && link.uri`
(run.ts lines 220, 223)? -/
def linkHasUri : Option ContentLink → Bool
  | none => false
  | some l => !(optFalsy l.uri)

/-- The `{ inputs, outputs }` result of `getActionLinks`. -/
structure ActionLinks : Type where
  inputs : Json
  outputs : Json

/-- `getActionLinks` (run.ts lines 209-227).  The two dev-mode fixture
tables (`inputsResponse` / `outputsResponse`, imported from the test
mocks) are passed in as parameters; the method reads them only through
`fixture[nodeId] ?? {}`.  In dev mode no transport call is made; otherwise
the outputs content is fetched first (when its link has a URI), then the
inputs content, each via `getContent`, whose failure aborts the method.
Both payloads are normalized with `parseActionLink`. -/
def StandardRunService.getActionLinks (svc : StandardRunService)
    (httpClient : Transport Json)
    (inputsResponse outputsResponse : List (String × Json))
    (actionMetadata : Option ActionMetadata) (nodeId : String) : CallResult ActionLinks :=
  let links := actionMetadata.getD {}
  if svc._isDev then
    let inputs := nullishCoalesce (lookupField inputsResponse nodeId) (Json.obj [])
    let outputs := nullishCoalesce (lookupField outputsResponse nodeId) (Json.obj [])
    { result := Except.ok
        { inputs := parseActionLink inputs true, outputs := parseActionLink outputs false }
      requests := [] }
  else
    let oStep : CallResult Json :=
      if linkHasUri links.outputsLink then
        svc.getContent httpClient (links.outputsLink.getD { uri := none })
      else { result := Except.ok (Json.obj []), requests := [] }
    match oStep.result with
    | Except.error e => { result := Except.error e, requests := oStep.requests }
    | Except.ok outputs =>
      let iStep : CallResult Json :=
        if linkHasUri links.inputsLink then
          svc.getContent httpClient (links.inputsLink.getD { uri := none })
        else { result := Except.ok (Json.obj []), requests := [] }
      match iStep.result with
      | Except.error e => { result := Except.error e, requests := oStep.requests ++ iStep.requests }
      | Except.ok inputs =>
        { result := Except.ok
            { inputs := parseActionLink inputs true, outputs := parseActionLink outputs false }
          requests := oStep.requests ++ iStep.requests }

/-- ASCII model of JavaScript `String.prototype.toLowerCase`. -/
def jsToLowerCase (s : String) : String :=
  String.mk (s.data.map Char.toLower)

/-- The options record handed to the transport verbs by
`getHttpRequestByMethod` / `runTrigger` (`{ uri }`). -/
structure HttpRequestOptions : Type where
  uri : String
  deriving DecidableEq

/-- `getHttpRequestByMethod` (run.ts lines 254-265): switch on
`method.toLowerCase()`; an unmatched method throws `UnsupportedException`
naming the method in its ORIGINAL spelling, with no transport call.  The
outer `Except` is the synchronous throw; the inner one the transport
outcome; the second component lists the verb invocations made. -/
def getHttpRequestByMethod {ρ : Type}
    (httpClient : Verb → HttpRequestOptions → Except TransportError ρ)
    (method : String) (options : HttpRequestOptions) :
    Except ServiceError (Except TransportError ρ) × List (Verb × HttpRequestOptions) :=
  let lowered := jsToLowerCase method
  if lowered = "get" then (Except.ok (httpClient Verb.get options), [(Verb.get, options)])
  else if lowered = "post" then (Except.ok (httpClient Verb.post options), [(Verb.post, options)])
  else if lowered = "put" then (Except.ok (httpClient Verb.put options), [(Verb.put, options)])
  else
    (Except.error (ServiceError.unsupported
        ("Unsupported call connector method - '" ++ method ++ "'")), [])

/-- `CallbackInfo` (from the workflow types): either a plain callback URL
(`value`) or a relative-path form carrying its own HTTP method. -/
inductive CallbackInfo : Type where
  | value : String → CallbackInfo
  | relativePath : String → String → CallbackInfo
  deriving DecidableEq

/-- The module-level `getCallbackUrl` helper (run.ts lines 267-269): it
unconditionally throws `Error('Function not implemented.')`. -/
def getCallbackUrl (_callbackInfo : CallbackInfo) : Except ServiceError String :=
  Except.error (ServiceError.plain ("Function not implemented."))

/-- The message built by `runTrigger`'s catch block for a transport
rejection (run.ts line 199): `` `${e.status} ${e?.data?.error?.message}` ``;
an absent `data.error.message` prints as `undefined`.  The error's own
`message` field is not consulted. -/
def runTriggerErrorMessage (e : TransportError) : String :=
  toString e.status ++ " " ++
    (match e.dataErrorMessage with
     | some m => m
     | none => "undefined")

/-- Outcome of `runTrigger` with the verb invocations it dispatched. -/
structure TriggerResult : Type where
  result : Except ServiceError Unit
  calls : List (Verb × HttpRequestOptions)

/-- `runTrigger` (run.ts lines 188-201): resolve the method (explicit for
the relative-path form, else POST), resolve the URI via `getCallbackUrl`
(whose throw propagates uncaught, before the try block), throw a bare
`Error` on a falsy URI, then dispatch through `getHttpRequestByMethod`;
the catch block shapes a transport rejection via `runTriggerErrorMessage`
(a synchronous `UnsupportedException` from the dispatch has neither a
`status` nor a `data` property, so both interpolate as `undefined`). -/
def StandardRunService.runTrigger {ρ : Type} (_svc : StandardRunService)
    (httpClient : Verb → HttpRequestOptions → Except TransportError ρ)
    (callbackInfo : CallbackInfo) : TriggerResult :=
  let method :=
    match callbackInfo with
    | CallbackInfo.relativePath _ m => m
    | CallbackInfo.value _ => "POST"
  match getCallbackUrl callbackInfo with
  | Except.error e => { result := Except.error e, calls := [] }
  | Except.ok uri =>
    if uri = "" then { result := Except.error (ServiceError.plain ("")), calls := [] }
    else
      match getHttpRequestByMethod httpClient method { uri := uri } with
      | (Except.error _, calls) =>
          { result := Except.error (ServiceError.plain ("undefined undefined")), calls := calls }
      | (Except.ok (Except.error e), calls) =>
          { result := Except.error (ServiceError.plain (runTriggerErrorMessage e)), calls := calls }
      | (Except.ok (Except.ok _), calls) => { result := Except.ok (), calls := calls }

/-- The caller-side pagination loop of §4.2: starting from an optional
`nextLink`, repeatedly call `getMoreRuns` on the current link, collecting
the pages' runs in order and the continuation URIs visited; `none` means
the fuel ran out before a page omitted its `nextLink`. -/
def followNextLinks {α : Type} (svc : StandardRunService)
    (server : Transport (ArmResources α)) :
    Nat → Option String → Option (Except ServiceError (List α) × List String)
  | _, none => some (Except.ok [], [])
  | 0, some _ => none
  | fuel + 1, some token =>
    match (svc.getMoreRuns server token).result with
    | Except.error e => some (Except.error e, [token])
    | Except.ok page =>
      match followNextLinks svc server fuel page.nextLink with
      | none => none
      | some (res, uris) => some (res.map (fun l => page.runs ++ l), token :: uris)

/-- `chainFrom svc server link chain` checks that `chain` is the exact
page chain the server serves from continuation `link`: each entry pairs
the continuation URI with the envelope the server returns for the
corresponding `getMoreRuns` request, each envelope's `nextLink` leads to
the next entry, and the final envelope omits `nextLink`. -/
def chainFrom {α : Type} [DecidableEq α] (svc : StandardRunService)
    (server : Transport (ArmResources α)) :
    Option String → List (String × ArmResources α) → Bool
  | none, [] => true
  | none, _ :: _ => false
  | some _, [] => false
  | some u, (u₂, env) :: rest =>
    decide (u = u₂) &&
      (match server (svc.moreRunsRequest u) with
       | Except.ok env₂ => decide (env₂ = env)
       | Except.error _ => false) &&
      chainFrom svc server env.nextLink rest

/-! ## Theorems -/

/-- Claim C1 (amended): `parseActionLink` is a pure deterministic
transform: a JS-falsy input — `null`, `undefined`, or notably the EMPTY
string — is returned unchanged; a NON-EMPTY string input yields the
one-entry mapping keyed `Inputs`/`Outputs` by `isInput` with
`{ displayName: key, value: the string }`; an object input yields the
mapping with the same keys sending each key `k` to
`{ displayName: k, value: original value at k }`, independent of
`isInput`. -/
theorem parseActionLink_spec :
    (∀ b : Bool,
      parseActionLink Json.null b = Json.null ∧
      parseActionLink Json.undef b = Json.undef ∧
      parseActionLink (Json.str ("")) b = Json.str ("")) ∧
    (∀ s : String, s ≠ "" →
      parseActionLink (Json.str s) true =
        Json.obj [("Inputs",
          Json.obj [("displayName", Json.str ("Inputs")), ("value", Json.str s)])] ∧
      parseActionLink (Json.str s) false =
        Json.obj [("Outputs",
          Json.obj [("displayName", Json.str ("Outputs")), ("value", Json.str s)])]) ∧
    (∀ (fields : List (String × Json)) (b : Bool),
      parseActionLink (Json.obj fields) b =
        Json.obj (fields.map fun kv =>
          (kv.1, Json.obj [("displayName", Json.str kv.1), ("value", kv.2)]))) := by
  refine ⟨fun b => ⟨rfl, rfl, rfl⟩, fun s h => ?_, fun fields b => rfl⟩
  have hf : (Json.str s).isFalsy = false := by simp [Json.isFalsy, h]
  constructor <;> simp [parseActionLink, hf]

/-- Witness for C1 at the concrete non-empty string `"hello"`. -/
theorem parseActionLink_spec_witness :
    parseActionLink (Json.str ("hello")) true =
      Json.obj [("Inputs",
        Json.obj [("displayName", Json.str ("Inputs")), ("value", Json.str ("hello"))])] :=
  (parseActionLink_spec.2.1 ("hello") (by decide)).1

/-- Claim C1 as frozen is false at the concrete string input `""`: the
empty string is falsy in JavaScript, so `parseActionLink` returns it
unchanged instead of the one-entry `Inputs` mapping the claim promises
for every string input. -/
theorem parseActionLink_empty_string_cex :
    parseActionLink (Json.str ("")) true = Json.str ("") ∧
    parseActionLink (Json.str ("")) true ≠
      Json.obj [("Inputs",
        Json.obj [("displayName", Json.str ("Inputs")), ("value", Json.str (""))])] := by
  refine ⟨rfl, fun h => ?_⟩
  exact Json.noConfusion (show Json.str ("") = _ from h)

/-- Claim C2: construction fails synchronously with an
`ArgumentException`-kind error when `baseUrl` is empty, likewise when
`apiVersion` is empty; with both non-empty it succeeds regardless of the
`isDev` flag's value, and the stored dev flag equals `isDev` when
supplied and `false` otherwise. -/
theorem mkStandardRunService_spec (options : RunServiceOptions) :
    (options.baseUrl = "" →
      mkStandardRunService options =
        Except.error (ServiceError.argument ("baseUrl required"))) ∧
    (options.baseUrl ≠ "" → options.apiVersion = "" →
      mkStandardRunService options =
        Except.error (ServiceError.argument ("apiVersion required"))) ∧
    (options.baseUrl ≠ "" → options.apiVersion ≠ "" →
      mkStandardRunService options =
        Except.ok { options := options
                    _isDev := match options.isDev with
                      | some b => b
                      | none => false }) := by
  refine ⟨fun h1 => ?_, fun h1 h2 => ?_, fun h1 h2 => ?_⟩
  · simp [mkStandardRunService, h1]
  · simp [mkStandardRunService, h1, h2]
  · simp only [mkStandardRunService, if_neg h1, if_neg h2]
    cases options.isDev <;> rfl

/-- Witness for C2 at three concrete options records: empty base URL,
empty API version, and a fully valid record with `isDev = some true`. -/
theorem mkStandardRunService_spec_witness :
    mkStandardRunService { apiVersion := "v", baseUrl := "", workflowName := "w" } =
      Except.error (ServiceError.argument ("baseUrl required")) ∧
    mkStandardRunService { apiVersion := "", baseUrl := "b", workflowName := "w" } =
      Except.error (ServiceError.argument ("apiVersion required")) ∧
    mkStandardRunService
        { apiVersion := "v", baseUrl := "b", workflowName := "w", isDev := some true } =
      Except.ok
        { options := { apiVersion := "v", baseUrl := "b", workflowName := "w", isDev := some true }
          _isDev := true } :=
  ⟨(mkStandardRunService_spec _).1 rfl,
   (mkStandardRunService_spec _).2.1 (by decide) rfl,
   (mkStandardRunService_spec _).2.2 (by decide) (by decide)⟩

/-- Claim C10: for every callback descriptor whatsoever, `runTrigger`
throws `Error('Function not implemented.')` — propagated from the
module-level `getCallbackUrl` helper, which unconditionally throws —
before performing any transport call. -/
theorem runTrigger_never_reaches_transport (ρ : Type) (svc : StandardRunService)
    (httpClient : Verb → HttpRequestOptions → Except TransportError ρ)
    (callbackInfo : CallbackInfo) :
    svc.runTrigger httpClient callbackInfo =
      { result := Except.error (ServiceError.plain ("Function not implemented."))
        calls := [] } := rfl

/-- Claim C4: for every callback descriptor no URI is resolvable
(`getCallbackUrl` yields an error for all of them), and `runTrigger`
then fails with zero transport dispatches; moreover the message the
catch block would build for a failed transport call is exactly the
status code followed by the `data.error.message` field, independent of
the error's own `message` text. -/
theorem runTrigger_error_shape (ρ : Type) (svc : StandardRunService)
    (httpClient : Verb → HttpRequestOptions → Except TransportError ρ)
    (callbackInfo : CallbackInfo) :
    ((∃ e, getCallbackUrl callbackInfo = Except.error e) ∧
     (svc.runTrigger httpClient callbackInfo).calls = [] ∧
     ∃ msg, (svc.runTrigger httpClient callbackInfo).result =
       Except.error (ServiceError.plain msg)) ∧
    (∀ (e : TransportError) (m : String),
      runTriggerErrorMessage { e with message := m } = runTriggerErrorMessage e) ∧
    (∀ (st : Nat) (m d : String),
      runTriggerErrorMessage { message := m, status := st, dataErrorMessage := some d } =
        toString st ++ " " ++ d) :=
  ⟨⟨⟨ServiceError.plain ("Function not implemented."), rfl⟩, rfl, ⟨_, rfl⟩⟩,
   fun _ _ => rfl, fun _ _ _ => rfl⟩

/-- Claim C5 (amended): dispatch is case-insensitive — every method whose
lowercasing is `get`, `post` or `put` invokes the matching transport
verb once with the given options; any other method throws
`UnsupportedException` without invoking the transport, the message
naming the rejected method in its ORIGINAL spelling (`'DELETE'`, not the
lowercased `'delete'`). -/
theorem getHttpRequestByMethod_spec (ρ : Type)
    (httpClient : Verb → HttpRequestOptions → Except TransportError ρ)
    (method : String) (options : HttpRequestOptions) :
    (jsToLowerCase method = "get" →
      getHttpRequestByMethod httpClient method options =
        (Except.ok (httpClient Verb.get options), [(Verb.get, options)])) ∧
    (jsToLowerCase method = "post" →
      getHttpRequestByMethod httpClient method options =
        (Except.ok (httpClient Verb.post options), [(Verb.post, options)])) ∧
    (jsToLowerCase method = "put" →
      getHttpRequestByMethod httpClient method options =
        (Except.ok (httpClient Verb.put options), [(Verb.put, options)])) ∧
    (jsToLowerCase method ≠ "get" → jsToLowerCase method ≠ "post" →
     jsToLowerCase method ≠ "put" →
      getHttpRequestByMethod httpClient method options =
        (Except.error (ServiceError.unsupported
          ("Unsupported call connector method - '" ++ method ++ "'")), [])) := by
  refine ⟨fun h => ?_, fun h => ?_, fun h => ?_, fun h1 h2 h3 => ?_⟩
  · simp [getHttpRequestByMethod, h]
  · simp [getHttpRequestByMethod, h]
  · simp [getHttpRequestByMethod, h]
  · simp [getHttpRequestByMethod, h1, h2, h3]

/-- Witness for C5 at the concrete methods `"Get"` (mixed case,
dispatched to the GET verb) and `"Delete"` (rejected, named in original
spelling). -/
theorem getHttpRequestByMethod_spec_witness :
    getHttpRequestByMethod
        (fun (_ : Verb) (_ : HttpRequestOptions) => (Except.ok 7 : Except TransportError Nat))
        ("Get") { uri := "u" } =
      (Except.ok (Except.ok 7), [(Verb.get, { uri := "u" })]) ∧
    getHttpRequestByMethod
        (fun (_ : Verb) (_ : HttpRequestOptions) => (Except.ok 7 : Except TransportError Nat))
        ("Delete") { uri := "u" } =
      (Except.error (ServiceError.unsupported
        ("Unsupported call connector method - 'Delete'")), []) :=
  ⟨(getHttpRequestByMethod_spec Nat _ ("Get") _).1 (by decide),
   (getHttpRequestByMethod_spec Nat _ ("Delete") _).2.2.2 (by decide) (by decide) (by decide)⟩

/-- Claim C5 as frozen is false at the concrete method `"DELETE"`: the
thrown message names the method in its original spelling `'DELETE'`,
which differs from the message naming the lowercased `'delete'` that the
claim asserts. -/
theorem getHttpRequestByMethod_delete_cex :
    getHttpRequestByMethod
        (fun (_ : Verb) (_ : HttpRequestOptions) => (Except.ok 0 : Except TransportError Nat))
        ("DELETE") { uri := "u" } =
      (Except.error (ServiceError.unsupported
        ("Unsupported call connector method - 'DELETE'")), []) ∧
    ("Unsupported call connector method - 'DELETE'" : String) ≠
      "Unsupported call connector method - 'delete'" := by
  exact ⟨rfl, by decide⟩

/-- Claim C7: with the dev flag set, `getScopeRepetitions` resolves to
`{ value: [] }` and performs zero transport calls, for every `nodeId`,
`runId` and `status` argument. -/
theorem getScopeRepetitions_dev_spec (svc : StandardRunService)
    (hdev : svc._isDev = true) (httpClient : Transport (ValueList Nat))
    (action : ActionRef) (status : Option String) :
    (svc.getScopeRepetitions httpClient action status).result =
      Except.ok { value := [] } ∧
    (svc.getScopeRepetitions httpClient action status).requests = [] := by
  constructor <;> simp [StandardRunService.getScopeRepetitions, hdev]

/-- Witness for C7 at a concrete dev-mode service, with a supplied
status. -/
theorem getScopeRepetitions_dev_spec_witness :
    (StandardRunService.getScopeRepetitions
      { options := { apiVersion := "v", baseUrl := "b", workflowName := "w", isDev := some true }
        _isDev := true }
      (fun _ => (Except.error {} : Except TransportError (ValueList Nat)))
      { nodeId := "n", runId := some ("r") } (some ("Succeeded"))).result =
        Except.ok { value := [] } ∧
    (StandardRunService.getScopeRepetitions
      { options := { apiVersion := "v", baseUrl := "b", workflowName := "w", isDev := some true }
        _isDev := true }
      (fun _ => (Except.error {} : Except TransportError (ValueList Nat)))
      { nodeId := "n", runId := some ("r") } (some ("Succeeded"))).requests = [] :=
  getScopeRepetitions_dev_spec _ rfl _ _ _

/-- Claim C6: whenever the underlying transport call fails with an error
`e`, each of `getContent`, `getRun`, `getRuns`, `getMoreRuns`,
`getScopeRepetitions` (non-dev) and `getRepetition` re-raises a plain
error whose message is exactly `e.message`; the raised
`ServiceError.plain` value holds nothing but that string, so `e`'s
structured fields (status code, server error body) cannot appear in it. -/
theorem read_ops_plain_error_spec (svc : StandardRunService)
    (hdev : svc._isDev = false) (e : TransportError)
    (contentLink : ContentLink) (hlink : optFalsy contentLink.uri = false)
    (runId continuationToken repetitionId : String)
    (action : ActionRef) (status : Option String) :
    (svc.getContent (fun _ => (Except.error e : Except TransportError Json))
        contentLink).result = Except.error (ServiceError.plain e.message) ∧
    (svc.getRun (fun _ => (Except.error e : Except TransportError Json))
        runId).result = Except.error (ServiceError.plain e.message) ∧
    (svc.getRuns
        (fun _ => (Except.error e : Except TransportError (ArmResources Nat)))).result =
      Except.error (ServiceError.plain e.message) ∧
    (svc.getMoreRuns (fun _ => (Except.error e : Except TransportError (ArmResources Nat)))
        continuationToken).result = Except.error (ServiceError.plain e.message) ∧
    (svc.getScopeRepetitions (fun _ => (Except.error e : Except TransportError (ValueList Nat)))
        action status).result = Except.error (ServiceError.plain e.message) ∧
    (svc.getRepetition (fun _ => (Except.error e : Except TransportError Json))
        action repetitionId).result = Except.error (ServiceError.plain e.message) := by
  refine ⟨?_, rfl, rfl, rfl, ?_, rfl⟩
  · simp [StandardRunService.getContent, hlink]
  · simp [StandardRunService.getScopeRepetitions, hdev]

/-- Witness for C6 at a concrete non-dev service, a content link with a
URI, and a transport error carrying a status and a server message that
are both dropped. -/
theorem read_ops_plain_error_spec_witness :
    ((StandardRunService.mk
        { apiVersion := "v", baseUrl := "b", workflowName := "w" } false).getContent
      (fun _ => (Except.error { message := "boom", status := 502, dataErrorMessage := some ("detail") } :
         Except TransportError Json))
      { uri := some ("http://c") }).result = Except.error (ServiceError.plain ("boom")) ∧
    ((StandardRunService.mk
        { apiVersion := "v", baseUrl := "b", workflowName := "w" } false).getScopeRepetitions
      (fun _ => (Except.error { message := "boom", status := 502, dataErrorMessage := some ("detail") } :
         Except TransportError (ValueList Nat)))
      { nodeId := "n", runId := some ("r") } none).result =
        Except.error (ServiceError.plain ("boom")) :=
  ⟨(read_ops_plain_error_spec _ rfl _ _ (by decide) ("r1") ("t") ("rep")
      { nodeId := "n", runId := some ("r") } none).1,
   (read_ops_plain_error_spec _ rfl
      { message := "boom", status := 502, dataErrorMessage := some ("detail") }
      { uri := some ("http://c") } (by decide) ("r1") ("t") ("rep")
      { nodeId := "n", runId := some ("r") } none).2.2.2.2.1⟩

/-- Claim C8 (amended): in non-dev mode `getScopeRepetitions` issues one
GET whose URI is
`{baseUrl}{runId}/actions/{nodeId}/scopeRepetitions?api-version={apiVersion}`
followed by the exact suffix `&$filter=status eq '{status}'` exactly
when a NON-EMPTY status is supplied; when status is omitted — or
supplied as the empty string, which the code's truthiness test treats
like omission — nothing is appended. -/
theorem getScopeRepetitions_uri_spec (svc : StandardRunService)
    (hdev : svc._isDev = false) (httpClient : Transport (ValueList Nat))
    (action : ActionRef) (status : Option String) :
    (∀ s, status = some s → s ≠ "" →
      (svc.getScopeRepetitions httpClient action status).requests.map (fun r => r.uri) =
        [svc.options.baseUrl ++ interp action.runId ++ "/actions/" ++ action.nodeId ++
          "/scopeRepetitions?api-version=" ++ svc.options.apiVersion ++
          ("&$filter=status eq '" ++ s ++ "'")]) ∧
    (status = none ∨ status = some ("") →
      (svc.getScopeRepetitions httpClient action status).requests.map (fun r => r.uri) =
        [svc.options.baseUrl ++ interp action.runId ++ "/actions/" ++ action.nodeId ++
          "/scopeRepetitions?api-version=" ++ svc.options.apiVersion]) := by
  constructor
  · rintro s rfl hs
    simp [StandardRunService.getScopeRepetitions, hdev,
      StandardRunService.scopeRepetitionsRequest, optFalsy, hs]
  · rintro (rfl | rfl) <;>
      simp [StandardRunService.getScopeRepetitions, hdev,
        StandardRunService.scopeRepetitionsRequest, optFalsy]

/-- Witness for C8 at a concrete non-dev service, with status
`"Succeeded"` and with status omitted. -/
theorem getScopeRepetitions_uri_spec_witness :
    ((StandardRunService.mk
        { apiVersion := "v", baseUrl := "b", workflowName := "w" } false).getScopeRepetitions
      (fun _ => (Except.ok { value := [] } : Except TransportError (ValueList Nat)))
      { nodeId := "n", runId := some ("/r") } (some ("Succeeded"))).requests.map (fun r => r.uri) =
      ["b" ++ "/r" ++ "/actions/" ++ "n" ++ "/scopeRepetitions?api-version=" ++ "v" ++
        ("&$filter=status eq '" ++ "Succeeded" ++ "'")] ∧
    ((StandardRunService.mk
        { apiVersion := "v", baseUrl := "b", workflowName := "w" } false).getScopeRepetitions
      (fun _ => (Except.ok { value := [] } : Except TransportError (ValueList Nat)))
      { nodeId := "n", runId := some ("/r") } none).requests.map (fun r => r.uri) =
      ["b" ++ "/r" ++ "/actions/" ++ "n" ++ "/scopeRepetitions?api-version=" ++ "v"] :=
  ⟨(getScopeRepetitions_uri_spec _ rfl _ { nodeId := "n", runId := some ("/r") }
      (some ("Succeeded"))).1 ("Succeeded") rfl (by decide),
   (getScopeRepetitions_uri_spec _ rfl _ { nodeId := "n", runId := some ("/r") }
      none).2 (Or.inl rfl)⟩

/-- Claim C8 as frozen is false at the concrete supplied status `""`: the
code's `status ? ... : ''` truthiness test appends no `$filter` clause
for a supplied-but-empty status, so the suffix is NOT appended "exactly
when a status argument is supplied". -/
theorem getScopeRepetitions_empty_status_cex :
    ((StandardRunService.mk
        { apiVersion := "v", baseUrl := "b", workflowName := "w" } false).getScopeRepetitions
      (fun _ => (Except.ok { value := [] } : Except TransportError (ValueList Nat)))
      { nodeId := "n", runId := some ("/r") } (some (""))).requests.map (fun r => r.uri) =
      ["b/r/actions/n/scopeRepetitions?api-version=v"] ∧
    ("b/r/actions/n/scopeRepetitions?api-version=v" : String) ≠
      "b/r/actions/n/scopeRepetitions?api-version=v&$filter=status eq ''" := by
  exact ⟨rfl, by decide⟩

/-- Helper: on a link with a truthy URI, `getContent` under a succeeding
transport returns the decoded body of exactly one request. -/
theorem getContent_ok {ρ : Type} (svc : StandardRunService) (f : HttpRequest → ρ)
    (l : ContentLink) (h : optFalsy l.uri = false) :
    svc.getContent (fun r => Except.ok (f r)) l =
      { result := Except.ok (f (contentRequest l)), requests := [contentRequest l] } := by
  simp [StandardRunService.getContent, h]

/-- Helper: `link && link.uri` being truthy means the link is present and
its URI is truthy. -/
theorem linkHasUri_getD (x : Option ContentLink) (h : linkHasUri x = true) :
    optFalsy ((x.getD { uri := none }).uri) = false := by
  cases x with
  | none => simp [linkHasUri] at h
  | some l => simpa [linkHasUri] using h

/-- Claim C9: in dev mode `getActionLinks` performs zero transport calls
for every argument and returns the fixture payloads keyed by `nodeId`
(the empty object when the key is absent), each normalized by
`parseActionLink`; in non-dev mode (under a succeeding transport) it
fetches the outputs content first — only when `outputsLink.uri` is
present — then the inputs content — only when `inputsLink.uri` is
present — sequentially in that request order, returning
`{ inputs, outputs }` normalized by `parseActionLink` with
`isInput = true` for inputs and `false` for outputs. -/
theorem getActionLinks_spec (svc : StandardRunService) (f : HttpRequest → Json)
    (inputsResponse outputsResponse : List (String × Json))
    (actionMetadata : Option ActionMetadata) (nodeId : String) :
    (svc._isDev = true →
      ∀ httpClient : Transport Json,
        svc.getActionLinks httpClient inputsResponse outputsResponse actionMetadata nodeId =
          { result := Except.ok
              { inputs := parseActionLink
                  (nullishCoalesce (lookupField inputsResponse nodeId) (Json.obj [])) true
                outputs := parseActionLink
                  (nullishCoalesce (lookupField outputsResponse nodeId) (Json.obj [])) false }
            requests := [] }) ∧
    (svc._isDev = false →
      svc.getActionLinks (fun r => Except.ok (f r)) inputsResponse outputsResponse
          actionMetadata nodeId =
        { result := Except.ok
            { inputs := parseActionLink
                (if linkHasUri (actionMetadata.getD {}).inputsLink
                 then f (contentRequest ((actionMetadata.getD {}).inputsLink.getD { uri := none }))
                 else Json.obj []) true
              outputs := parseActionLink
                (if linkHasUri (actionMetadata.getD {}).outputsLink
                 then f (contentRequest ((actionMetadata.getD {}).outputsLink.getD { uri := none }))
                 else Json.obj []) false }
          requests :=
            (if linkHasUri (actionMetadata.getD {}).outputsLink
             then [contentRequest ((actionMetadata.getD {}).outputsLink.getD { uri := none })]
             else []) ++
            (if linkHasUri (actionMetadata.getD {}).inputsLink
             then [contentRequest ((actionMetadata.getD {}).inputsLink.getD { uri := none })]
             else []) }) := by
  constructor
  · intro h httpClient
    simp [StandardRunService.getActionLinks, h]
  · intro h
    cases hO : linkHasUri (actionMetadata.getD {}).outputsLink with
    | false =>
      cases hI : linkHasUri (actionMetadata.getD {}).inputsLink with
      | false => simp [StandardRunService.getActionLinks, h, hO, hI]
      | true =>
        simp [StandardRunService.getActionLinks, h, hO, hI,
          getContent_ok svc f _ (linkHasUri_getD _ hI)]
    | true =>
      cases hI : linkHasUri (actionMetadata.getD {}).inputsLink with
      | false =>
        simp [StandardRunService.getActionLinks, h, hO, hI,
          getContent_ok svc f _ (linkHasUri_getD _ hO)]
      | true =>
        simp [StandardRunService.getActionLinks, h, hO, hI,
          getContent_ok svc f _ (linkHasUri_getD _ hO),
          getContent_ok svc f _ (linkHasUri_getD _ hI)]

/-- Witness for C9: a dev-mode service with a fixture hit and miss, and a
non-dev service with both links present, whose transport echoes the
request URI; the outputs request precedes the inputs request. -/
theorem getActionLinks_spec_witness :
    (StandardRunService.mk
        { apiVersion := "v", baseUrl := "b", workflowName := "w", isDev := some true } true).getActionLinks
      (fun _ => Except.error { message := "no network in dev" })
      [("n1", Json.str ("fi"))] []
      (some { inputsLink := some { uri := some ("iu") }
              outputsLink := some { uri := some ("ou") } }) ("n1") =
      { result := Except.ok
          { inputs := Json.obj [("Inputs",
              Json.obj [("displayName", Json.str ("Inputs")), ("value", Json.str ("fi"))])]
            outputs := Json.obj [] }
        requests := [] } ∧
    (StandardRunService.mk
        { apiVersion := "v", baseUrl := "b", workflowName := "w" } false).getActionLinks
      (fun r => Except.ok (Json.str r.uri))
      [("n1", Json.str ("fi"))] []
      (some { inputsLink := some { uri := some ("iu") }
              outputsLink := some { uri := some ("ou") } }) ("n1") =
      { result := Except.ok
          { inputs := Json.obj [("Inputs",
              Json.obj [("displayName", Json.str ("Inputs")), ("value", Json.str ("iu"))])]
            outputs := Json.obj [("Outputs",
              Json.obj [("displayName", Json.str ("Outputs")), ("value", Json.str ("ou"))])] }
        requests :=
          [{ verb := Verb.get, uri := "ou"
             headers := [("Access-Control-Allow-Origin", "*")], noAuth := true },
           { verb := Verb.get, uri := "iu"
             headers := [("Access-Control-Allow-Origin", "*")], noAuth := true }] } :=
  ⟨(getActionLinks_spec _ (fun r => Json.str r.uri) [("n1", Json.str ("fi"))] []
      (some { inputsLink := some { uri := some ("iu") }
              outputsLink := some { uri := some ("ou") } }) ("n1")).1 rfl _,
   (getActionLinks_spec _ (fun r => Json.str r.uri) [("n1", Json.str ("fi"))] []
      (some { inputsLink := some { uri := some ("iu") }
              outputsLink := some { uri := some ("ou") } }) ("n1")).2 rfl⟩

/-- Helper: a verified page chain makes the `getMoreRuns` iteration
return, for any sufficient fuel, the in-order concatenation of the
chain's run arrays, after visiting exactly the chain's continuation
URIs. -/
theorem chainFrom_followNextLinks {α : Type} [DecidableEq α] (svc : StandardRunService)
    (server : Transport (ArmResources α)) :
    ∀ (chain : List (String × ArmResources α)) (link : Option String),
      chainFrom svc server link chain = true →
      ∀ fuel : Nat, chain.length ≤ fuel →
        followNextLinks svc server fuel link =
          some (Except.ok (chain.map (fun p => p.2.value)).flatten,
            chain.map (fun p => p.1)) := by
  intro chain
  induction chain with
  | nil =>
    intro link hchain fuel _
    cases link with
    | none => cases fuel <;> rfl
    | some u => simp [chainFrom] at hchain
  | cons head rest ih =>
    obtain ⟨u₂, env⟩ := head
    intro link hchain fuel hfuel
    cases link with
    | none => simp [chainFrom] at hchain
    | some u =>
      simp only [chainFrom, Bool.and_eq_true, decide_eq_true_eq] at hchain
      obtain ⟨⟨hu, hserv⟩, hrest⟩ := hchain
      subst hu
      cases fuel with
      | zero => simp at hfuel
      | succ m =>
        have hm : rest.length ≤ m := by
          simp only [List.length_cons] at hfuel
          omega
        cases hs : server (svc.moreRunsRequest u) with
        | error e => rw [hs] at hserv; simp at hserv
        | ok env₂ =>
          rw [hs] at hserv
          simp only [decide_eq_true_eq] at hserv
          subst hserv
          simp only [followNextLinks, StandardRunService.getMoreRuns, hs,
            ih env₂.nextLink hrest m hm, Except.map, List.map_cons, List.flatten_cons]

/-- Claim C3: `getRuns` issues a GET to exactly
`{baseUrl}/workflows/{workflowName}/runs?api-version={apiVersion}` and
`getMoreRuns` a GET whose URI is the continuation token unmodified; both
extract `{ nextLink, runs }` from the envelope's `nextLink` and `value`
fields; and iterating `getMoreRuns` over each returned `nextLink`
terminates exactly at the page omitting `nextLink`, after visiting the
whole chain, with the run arrays concatenated in server order. -/
theorem pagination_spec :
    (∀ (α : Type) (svc : StandardRunService) (server : Transport (ArmResources α)),
      (svc.getRuns server).requests =
        [{ verb := Verb.get
           uri := svc.options.baseUrl ++ "/workflows/" ++ svc.options.workflowName ++
             "/runs?api-version=" ++ svc.options.apiVersion
           headers := (svc.getAccessTokenHeaders).getD [] }]) ∧
    (∀ (α : Type) (svc : StandardRunService) (server : Transport (ArmResources α))
        (continuationToken : String),
      (svc.getMoreRuns server continuationToken).requests =
        [{ verb := Verb.get
           uri := continuationToken
           headers := (svc.getAccessTokenHeaders).getD [] }]) ∧
    (∀ (α : Type) (svc : StandardRunService) (env : ArmResources α)
        (continuationToken : String),
      (svc.getRuns (fun _ => Except.ok env)).result =
        Except.ok { nextLink := env.nextLink, runs := env.value } ∧
      (svc.getMoreRuns (fun _ => Except.ok env) continuationToken).result =
        Except.ok { nextLink := env.nextLink, runs := env.value }) ∧
    (∀ (α : Type) [DecidableEq α] (svc : StandardRunService)
        (server : Transport (ArmResources α)) (link : Option String)
        (chain : List (String × ArmResources α)),
      chainFrom svc server link chain = true →
      ∀ fuel : Nat, chain.length ≤ fuel →
        followNextLinks svc server fuel link =
          some (Except.ok (chain.map (fun p => p.2.value)).flatten,
            chain.map (fun p => p.1))) := by
  refine ⟨fun α svc server => rfl, fun α svc server t => rfl,
    fun α svc env t => ⟨rfl, rfl⟩, ?_⟩
  intro α _inst svc server link chain hchain fuel hfuel
  exact chainFrom_followNextLinks svc server chain link hchain fuel hfuel

/-- Witness for C3: a concrete two-page chain (`t1` then `t2`, the second
omitting `nextLink`) is drained in two `getMoreRuns` steps, visiting
`t1` then `t2` and concatenating the pages in order. -/
theorem pagination_spec_witness :
    followNextLinks
      (StandardRunService.mk { apiVersion := "v", baseUrl := "b", workflowName := "w" } false)
      (fun req =>
        (if req.uri = "t1" then Except.ok { value := [1, 2], nextLink := some ("t2") }
         else if req.uri = "t2" then Except.ok { value := [3], nextLink := none }
         else Except.error {} : Except TransportError (ArmResources Nat)))
      2 (some ("t1")) = some (Except.ok [1, 2, 3], ["t1", "t2"]) :=
  pagination_spec.2.2.2 Nat
    (StandardRunService.mk { apiVersion := "v", baseUrl := "b", workflowName := "w" } false)
    (fun req =>
      (if req.uri = "t1" then Except.ok { value := [1, 2], nextLink := some ("t2") }
       else if req.uri = "t2" then Except.ok { value := [3], nextLink := none }
       else Except.error {} : Except TransportError (ArmResources Nat)))
    (some ("t1"))
    [("t1", { value := [1, 2], nextLink := some ("t2") }),
     ("t2", { value := [3], nextLink := none })]
    (by decide) 2 (by decide)

end LogicAppsRun
